import Mathlib

/-!
Verification of the HallPass reservation/availability engine.

This file gives a shallow embedding of the engine implemented in
`src/services/firestore.ts`, `src/components/booking-form.tsx`,
`src/components/venue-calendar.tsx` and `src/app/approve/[token]/page.tsx`,
and proves properties of the embedded definitions.

Modelling conventions:
- Calendar days are `Nat` day indices (a JavaScript `Date` normalized with
  `startOfDay` is represented by its day index); instants (the values built
  with `setHours`/`setMinutes` and compared with `isBefore`/`<`) are `Int`
  minutes since epoch, so a day `d` spans `[d*1440, d*1440+1440)`.
- Times of day travel as `"HH:mm"` strings exactly as in the source and are
  parsed with `split(':').map(Number)`, embedded as `parseHM`.
- The two Firebase backends (the authoritative Firestore collection
  `pendingBookings`, the Realtime-Database mirror `hallBookings`, the
  per-user mirror `users/<uid>/bookings` and the failure log
  `dataFetchFailures/hallBookingsForDate`) are the fields of `Store`.
- Each vendor call that can fail at runtime is given an explicit Boolean
  success flag; an operation returns its result (as `Except`) together with
  the store it leaves behind, so partial effects of failed operations stay
  observable.
-/

namespace HallPass

/-- Reservation status stored in the `status` field. -/
inductive BookingStatus where
  | pending
  | approved
  | rejected
deriving DecidableEq, Repr

/-- The `newStatus` argument of `updateBookingStatus` ('approved' | 'rejected'). -/
inductive Decision where
  | approved
  | rejected
deriving DecidableEq, Repr

/-- `String.prototype.split(':')` on the character list. -/
def splitOnColon : List Char → List Char → List (List Char)
  | [], acc => [acc.reverse]
  | c :: rest, acc =>
      if c == ':' then acc.reverse :: splitOnColon rest []
      else splitOnColon rest (c :: acc)

/-- JavaScript `Number` on a digit string: `none` models `NaN`; the empty
string parses to 0 as in JavaScript. -/
def digitsToNat : List Char → Option Nat
  | cs => cs.foldl (fun acc c =>
      match acc with
      | none => none
      | some n => if c.isDigit then some (n * 10 + (c.toNat - 48)) else none)
      (some 0)

/-- Embeds `s.split(':').map(Number)` on an `"HH:mm"` string, returning
(hours, minutes). Malformed strings (which would give `NaN` in JavaScript)
default to 0. -/
def parseHM (s : String) : Nat × Nat :=
  match (splitOnColon s.data []).map digitsToNat with
  | [some h, some m] => (h, m)
  | _ => (0, 0)

/-- A whitespace character for `String.prototype.trim`. -/
def isJsWS (c : Char) : Bool :=
  c == ' ' || c == '\t' || c == '\n' || c == '\r'

/-- JavaScript `String.prototype.trim`: strips whitespace from both ends. -/
def trimStr (s : String) : String :=
  String.mk (((s.data.dropWhile isJsWS).reverse.dropWhile isJsWS).reverse)

/-- `setMinutes(setHours(startOfDay(date), h), m)`: the instant (in minutes
since epoch) at hours/minutes `hm` of day `day`. -/
def instantOf (day : Nat) (hm : Nat × Nat) : Int :=
  (day * 1440 + hm.1 * 60 + hm.2 : Nat)

/-- The booking form data (`BookingFormData` in `booking-form.tsx`):
student name and email, hall preference, date and `"HH:mm"` times. -/
structure BookingFormData where
  studentName : String
  studentEmail : String
  hallPreference : String
  date : Nat
  startTime : String
  endTime : String
deriving DecidableEq, Repr

/-- A document of the authoritative Firestore `pendingBookings` collection,
as written by `savePendingBooking` (`firestore.ts`). -/
structure BookingDoc where
  id : String
  studentName : String
  studentEmail : String
  hallPreference : String
  date : Nat
  startTime : String
  endTime : String
  startTimeDate : Option Int
  endTimeDate : Option Int
  status : BookingStatus
  token : String
  createdAt : Nat
  userId : Option String
  aiReason : Option String
  approvedAt : Option Nat
  rejectedAt : Option Nat
  rejectionReason : Option String
deriving DecidableEq, Repr

/-- A record under `hallBookings/<id>` in the Realtime Database mirror,
as written by `savePendingBooking`. -/
structure RTDBBooking where
  firestoreId : String
  studentName : String
  studentEmail : String
  hallPreference : String
  date : Nat
  startTime : String
  endTime : String
  startTimeISO : Int
  endTimeISO : Int
  status : BookingStatus
  userId : Option String
  createdAt : Nat
  aiReason : Option String
  approvedAt : Option Nat
  rejectedAt : Option Nat
  rejectionReason : Option String
deriving DecidableEq, Repr

/-- An entry of the `dataFetchFailures/hallBookingsForDate` observability log
written when `getHallBookingsForDate` fails. -/
structure FailureEvent where
  hallPreference : String
  date : Nat
  timestamp : Nat
deriving DecidableEq, Repr

/-- The two backends: the authoritative Firestore collection and the
best-effort Realtime Database paths. `nextId` generates Firestore
document ids (`addDoc`). -/
structure Store where
  firestore : List BookingDoc
  hallBookings : List RTDBBooking
  userBookings : List ((String × String) × RTDBBooking)
  failureLog : List FailureEvent
  nextId : Nat
deriving DecidableEq, Repr

/-- The conflict test of `checkAvailabilityWithRTDB` (`booking-form.tsx`
lines 145-148): the existing interval is expanded by the 1-hour gap on both
sides and overlap is tested with strict `isBefore` on both ends. -/
def rtdbConflict (existingStart existingEnd newStart newEnd : Int) : Bool :=
  decide (newStart < existingEnd + 60) && decide (existingStart - 60 < newEnd)

/-- The conflict test of `VenueCalendar` (`venue-calendar.tsx` lines
101-103): `slotStart < effectiveBookingEnd && slotEnd > effectiveBookingStart`
with the booking expanded by `GAP_DURATION_HOURS = 1` on both sides. -/
def calendarSlotConflict (slotStart slotEnd bookingStart bookingEnd : Int) : Bool :=
  decide (slotStart < bookingEnd + 60) && decide (slotEnd > bookingStart - 60)

/-- C1: both conflict checks report a conflict exactly when
`candidate.start < existing.end + 1h` and `existing.start - 1h < candidate.end`
(strict comparisons), and the boundary candidate 11:00-12:00 against an
existing 09:00-10:00 booking (minutes 540-600 of day 0) does not conflict. -/
theorem conflict_iff_buffered_overlap :
    (∀ es ee cs ce : Int,
      (rtdbConflict es ee cs ce = true ↔ cs < ee + 60 ∧ es - 60 < ce) ∧
      (calendarSlotConflict cs ce es ee = true ↔ cs < ee + 60 ∧ es - 60 < ce)) ∧
    rtdbConflict 540 600 660 720 = false := by
  refine ⟨fun es ee cs ce => ⟨?_, ?_⟩, by decide⟩
  · simp [rtdbConflict]
  · simp [calendarSlotConflict]

/-- Error taxonomy of the thrown `Error`s in `firestore.ts`. -/
inductive StoreErr where
  | saveFailed
  | updateFailed
  | fetchFailed
deriving DecidableEq, Repr

/-- Success flags for the three external writes performed by
`savePendingBooking`: the Firestore `addDoc`, the `hallBookings` mirror
`set`, and the `users/<uid>/bookings` mirror `set`. -/
structure SaveFlags where
  fsAddOk : Bool
  hallWriteOk : Bool
  userWriteOk : Bool
deriving DecidableEq, Repr

/-- Success flags for the external calls of `updateBookingStatus`: the
Firestore `updateDoc`, the `hallBookings` mirror `get`, and the
`hallBookings` mirror `set`. -/
structure UpdFlags where
  fsUpdateOk : Bool
  hallReadOk : Bool
  hallWriteOk : Bool
deriving DecidableEq, Repr

/-- All vendor calls succeed. -/
def allSaveOk : SaveFlags := ⟨true, true, true⟩

/-- All vendor calls succeed. -/
def allUpdOk : UpdFlags := ⟨true, true, true⟩

/-- The Firestore document built by `savePendingBooking` (`firestore.ts`
lines 265-287): times parsed from the `"HH:mm"` strings, date normalized to
start of day, status `'pending'`, id generated by `addDoc`. -/
def newBookingDoc (S : Store) (d : BookingFormData) (token : String)
    (userId aiReason : Option String) (now : Nat) : BookingDoc :=
  { id := toString S.nextId
    studentName := d.studentName
    studentEmail := d.studentEmail
    hallPreference := d.hallPreference
    date := d.date
    startTime := d.startTime
    endTime := d.endTime
    startTimeDate := some (instantOf d.date (parseHM d.startTime))
    endTimeDate := some (instantOf d.date (parseHM d.endTime))
    status := .pending
    token := token
    createdAt := now
    userId := userId
    aiReason := aiReason
    approvedAt := none
    rejectedAt := none
    rejectionReason := none }

/-- The `hallBookings/<id>` mirror record built by `savePendingBooking`
(`firestore.ts` lines 294-308). -/
def newRTDBBooking (S : Store) (d : BookingFormData) (userId aiReason : Option String)
    (now : Nat) : RTDBBooking :=
  { firestoreId := toString S.nextId
    studentName := d.studentName
    studentEmail := d.studentEmail
    hallPreference := d.hallPreference
    date := d.date
    startTime := d.startTime
    endTime := d.endTime
    startTimeISO := instantOf d.date (parseHM d.startTime)
    endTimeISO := instantOf d.date (parseHM d.endTime)
    status := .pending
    userId := userId
    createdAt := now
    aiReason := aiReason
    approvedAt := none
    rejectedAt := none
    rejectionReason := none }

/-- Realtime Database `set` at `hallBookings/<id>`: replaces any record with
the same key. -/
def setHallBooking (l : List RTDBBooking) (r : RTDBBooking) : List RTDBBooking :=
  l.filter (fun x => !(x.firestoreId == r.firestoreId)) ++ [r]

/-- Realtime Database `set` at `users/<uid>/bookings/<id>`. -/
def setUserBooking (l : List ((String × String) × RTDBBooking))
    (key : String × String) (r : RTDBBooking) : List ((String × String) × RTDBBooking) :=
  l.filter (fun x => !(x.1 == key)) ++ [(key, r)]

/-- `savePendingBooking(bookingDetails, token, userId, aiReason)`
(`firestore.ts` lines 263-328). Writes the authoritative Firestore document,
then the `hallBookings` mirror, then (when `userId` is present) the
per-requester mirror. All three `await`s sit in one `try` block whose `catch`
rethrows, so a failure of any of them surfaces as an error, with the effects
already performed left in place. -/
def savePendingBooking (S : Store) (d : BookingFormData) (token : String)
    (userId aiReason : Option String) (now : Nat) (f : SaveFlags) :
    Except StoreErr String × Store :=
  if !f.fsAddOk then (.error .saveFailed, S)
  else
    let doc := newBookingDoc S d token userId aiReason now
    let S1 : Store := { S with firestore := S.firestore ++ [doc], nextId := S.nextId + 1 }
    if !f.hallWriteOk then (.error .saveFailed, S1)
    else
      let rb := newRTDBBooking S d userId aiReason now
      let S2 : Store := { S1 with hallBookings := setHallBooking S1.hallBookings rb }
      match userId with
      | some uid =>
          if !f.userWriteOk then (.error .saveFailed, S2)
          else (.ok doc.id,
                { S2 with userBookings := setUserBooking S2.userBookings (uid, doc.id) rb })
      | none => (.ok doc.id, S2)

/-- The view of a Firestore document returned to callers
(`BookingRequest` in `firestore.ts`). -/
structure BookingRequest where
  id : String
  studentName : String
  studentEmail : String
  hallPreference : String
  date : Nat
  startTime : String
  endTime : String
  startTimeDate : Option Int
  endTimeDate : Option Int
  status : BookingStatus
  token : String
  createdAt : Nat
  userId : Option String
  approvedAt : Option Nat
  rejectedAt : Option Nat
  rejectionReason : Option String
  aiReason : Option String
deriving DecidableEq, Repr

/-- `mapDocToBookingRequest` (`firestore.ts` lines 330-366): copies the
stored fields; `startTimeDate`/`endTimeDate` are taken from the document
when both are present, otherwise reconstructed from the `"HH:mm"` strings
(the `data.startTime && data.endTime` truthiness test is the non-emptiness
of the strings). -/
def mapDocToBookingRequest (b : BookingDoc) : BookingRequest :=
  let times : Option Int × Option Int :=
    match b.startTimeDate, b.endTimeDate with
    | some s, some e => (some s, some e)
    | _, _ =>
        if !(b.startTime == "") && !(b.endTime == "") then
          (some (instantOf b.date (parseHM b.startTime)),
           some (instantOf b.date (parseHM b.endTime)))
        else (none, none)
  { id := b.id
    studentName := b.studentName
    studentEmail := b.studentEmail
    hallPreference := b.hallPreference
    date := b.date
    startTime := b.startTime
    endTime := b.endTime
    startTimeDate := times.1
    endTimeDate := times.2
    status := b.status
    token := b.token
    createdAt := b.createdAt
    userId := b.userId
    approvedAt := b.approvedAt
    rejectedAt := b.rejectedAt
    rejectionReason := b.rejectionReason
    aiReason := b.aiReason }

/-- `getBookingByToken(token)` (`firestore.ts` lines 369-386): the first
document of the `token ==` query, mapped through `mapDocToBookingRequest`.
Only the successful read path is modelled; the claims about `decide` assume
the fetch succeeded. -/
def getBookingByToken (S : Store) (token : String) : Option BookingRequest :=
  (S.firestore.find? (fun b => b.token == token)).map mapDocToBookingRequest

/-- `rejectionReason || "No reason provided."` on a `string | undefined`. -/
def reasonOrDefault : Option String → String
  | some r => if r == "" then "No reason provided." else r
  | none => "No reason provided."

/-- The `updateData` of `updateBookingStatus` (`firestore.ts` lines 391-402)
applied to a Firestore document: sets `status`; when approving, sets
`approvedAt` and clears `rejectionReason`; when rejecting, sets `rejectedAt`
and stores the caller's reason (defaulted when empty or missing). -/
def applyDecision (d : Decision) (reason : Option String) (now : Nat)
    (b : BookingDoc) : BookingDoc :=
  match d with
  | .approved => { b with status := .approved, approvedAt := some now, rejectionReason := none }
  | .rejected => { b with status := .rejected, rejectedAt := some now,
                          rejectionReason := some (reasonOrDefault reason) }

/-- The mirror update of `updateBookingStatus` (`firestore.ts` lines
405-420): spreads the existing `hallBookings` record and overwrites the
decision fields. -/
def applyMirrorDecision (d : Decision) (reason : Option String) (now : Nat)
    (r : RTDBBooking) : RTDBBooking :=
  match d with
  | .approved => { r with status := .approved, approvedAt := some now, rejectionReason := none }
  | .rejected => { r with status := .rejected, rejectedAt := some now,
                          rejectionReason := some (reasonOrDefault reason) }

/-- `updateBookingStatus(bookingId, newStatus, rejectionReason)`
(`firestore.ts` lines 388-455). Updates the Firestore document
unconditionally (no check of the current status), then reads the
`hallBookings` mirror and, when the record exists, rewrites it; a failure of
any of these propagates through the outer `catch` as an error. The trailing
per-user mirror block references the undefined variable `bookingDetails`
(line 433), so it always throws; its own `catch` swallows the failure, so it
never changes the store nor the result. -/
def updateBookingStatus (S : Store) (bookingId : String) (newStatus : Decision)
    (rejectionReason : Option String) (now : Nat) (f : UpdFlags) :
    Except StoreErr Unit × Store :=
  if !f.fsUpdateOk then (.error .updateFailed, S)
  else
    let S1 : Store := { S with
      firestore := S.firestore.map (fun b =>
        if b.id == bookingId then applyDecision newStatus rejectionReason now b else b) }
    if !f.hallReadOk then (.error .updateFailed, S1)
    else
      match S1.hallBookings.find? (fun r => r.firestoreId == bookingId) with
      | some _ =>
          if !f.hallWriteOk then (.error .updateFailed, S1)
          else
            (.ok (),
             { S1 with hallBookings := S1.hallBookings.map (fun r =>
                 if r.firestoreId == bookingId then
                   applyMirrorDecision newStatus rejectionReason now r
                 else r) })
      | none => (.ok (), S1)

/-- `getHallBookingsForDate(hallPreference, date)` (`firestore.ts` lines
549-584): a Firestore query on hall equality, `date` within
`[startOfDay, endOfDay]` (`endOfDay` is the last instant of the day) and
`status in ['pending','approved']`. On a read failure it first writes a
failure event to `dataFetchFailures/hallBookingsForDate` in the Realtime
Database (`logOk` is that inner write's success flag; its own failure is
only logged) and then rethrows. -/
def getHallBookingsForDate (S : Store) (hall : String) (day : Nat)
    (readOk logOk : Bool) (now : Nat) :
    Except StoreErr (List BookingRequest) × Store :=
  if readOk then
    (.ok ((S.firestore.filter (fun b =>
        b.hallPreference == hall
        && decide (day * 1440 ≤ b.date * 1440)
        && decide (b.date * 1440 ≤ day * 1440 + 1439)
        && (b.status == .pending || b.status == .approved))).map mapDocToBookingRequest),
     S)
  else
    let S' : Store :=
      if logOk then { S with failureLog := S.failureLog ++ [⟨hall, day, now⟩] } else S
    (.error .fetchFailed, S')

/-- `getHallBookingsForDateFromRealtimeDB(hallPreference, targetDate)`
(`firestore.ts` lines 625-669): reads the whole `hallBookings` mirror and
filters by hall, active status and same day; on any failure it returns the
empty list (`catch` at line 665 returns `[]`). -/
def getHallBookingsForDateFromRealtimeDB (S : Store) (hall : String) (day : Nat)
    (readOk : Bool) : List RTDBBooking :=
  if readOk then
    S.hallBookings.filter (fun r =>
      r.hallPreference == hall
      && (r.status == .pending || r.status == .approved)
      && r.date == day)
  else []

/-- `checkAvailabilityWithRTDB(hall, date, startTime, endTime)`
(`booking-form.tsx` lines 114-155): fetches the mirror bookings for the
hall/day; with no data, reports `(available, no data)`; otherwise scans for
a buffered conflict. Returns `(available, rtdbDataExists)`. -/
def checkAvailabilityWithRTDB (S : Store) (hall : String) (day : Nat)
    (startTime endTime : String) (readOk : Bool) : Bool × Bool :=
  let newStart := instantOf day (parseHM startTime)
  let newEnd := instantOf day (parseHM endTime)
  let existing := getHallBookingsForDateFromRealtimeDB S hall day readOk
  if existing.isEmpty then (true, false)
  else if existing.any (fun r => rtdbConflict r.startTimeISO r.endTimeISO newStart newEnd) then
    (false, true)
  else (true, true)

/-- Day status computed by the `VenueCalendar` month view. -/
inductive DayStatus where
  | available
  | fullyBooked
deriving DecidableEq, Repr

/-- `ALL_POSSIBLE_SLOTS` (`venue-calendar.tsx` lines 37-44): 1-hour slots
from `OPERATIONAL_START_HOUR = 9` up to `OPERATIONAL_END_HOUR = 17`. -/
def ALL_POSSIBLE_SLOTS : List (Nat × Nat) :=
  (List.range' 9 8).map (fun h => (h, h + 1))

/-- The fallback hall set of `getUniqueHalls`. -/
def defaultHalls : List String :=
  ["Main Hall", "Seminar Room A", "Conference Room B"]

/-- `getUniqueHalls(bookings)` (`venue-calendar.tsx` lines 46-52): the
distinct `hallPreference` values of the supplied bookings, or the fixed
default hall set when there are none. -/
def getUniqueHalls (bookings : List BookingRequest) : List String :=
  let halls := (bookings.map (fun b => b.hallPreference)).eraseDups
  if halls.isEmpty then defaultHalls else halls

/-- The interval `{start, end}` a booking contributes to the calendar
(`venue-calendar.tsx` lines 80-92): the stored `startTimeDate`/`endTimeDate`
when both exist, otherwise reconstructed from the `"HH:mm"` strings. -/
def calendarInterval (b : BookingRequest) : Int × Int :=
  match b.startTimeDate, b.endTimeDate with
  | some s, some e => (s, e)
  | _, _ => (instantOf b.date (parseHM b.startTime), instantOf b.date (parseHM b.endTime))

/-- `isSameDay(b.startTimeDate || b.date, day)` for a booking: the day of
the stored instant when present (instants are nonnegative in this model),
else the stored date. -/
def bookingOnDay (b : BookingRequest) (day : Nat) : Bool :=
  match b.startTimeDate with
  | some t => t.toNat / 1440 == day
  | none => b.date == day

/-- `bookingsForHallOnDay` (`venue-calendar.tsx` lines 78-92): the intervals
of the active (`'approved'` or `'pending'`) bookings of `hall` on `day`. -/
def bookingsForHallOnDay (bookings : List BookingRequest) (hall : String) (day : Nat) :
    List (Int × Int) :=
  ((bookings.filter (fun b =>
      bookingOnDay b day && b.hallPreference == hall
      && (b.status == .approved || b.status == .pending))).map calendarInterval)

/-- Whether a candidate slot is free of buffered conflicts against the
given booking intervals (`venue-calendar.tsx` lines 95-112, inner loop). -/
def slotIsAvailable (intervals : List (Int × Int)) (day : Nat) (slot : Nat × Nat) : Bool :=
  intervals.all (fun bi =>
    !(calendarSlotConflict (instantOf day (slot.1, 0)) (instantOf day (slot.2, 0)) bi.1 bi.2))

/-- Whether a hall has at least one free candidate slot on a day
(`venue-calendar.tsx` lines 94-112). -/
def hallHasAvailableSlot (bookings : List BookingRequest) (hall : String) (day : Nat) : Bool :=
  ALL_POSSIBLE_SLOTS.any (slotIsAvailable (bookingsForHallOnDay bookings hall day) day)

/-- The per-day status computed by the `VenueCalendar` effect
(`venue-calendar.tsx` lines 59-122): a day is `fully-booked` exactly when
no configured hall has an available slot; the `ALL_HALLS.length === 0`
branch marks everything available. -/
def dayStatus (bookings : List BookingRequest) (day : Nat) : DayStatus :=
  let halls := getUniqueHalls bookings
  if halls.isEmpty then .available
  else if halls.all (fun hall => !(hallHasAvailableSlot bookings hall day)) then .fullyBooked
  else .available

/-- The action of the approval page's `handleAction` ('approve' | 'reject'). -/
inductive DecideAction where
  | approve
  | reject
deriving DecidableEq, Repr

/-- Outcome of a run of the approval page for one token. -/
inductive DecideResult where
  | notFound
  | alreadyProcessed (b : BookingRequest)
  | missingReason
  | decided (d : Decision)
  | errored (e : StoreErr)
deriving DecidableEq, Repr

/-- The decision workflow of the approval page
(`src/app/approve/[token]/page.tsx`): `fetchBooking` (lines 28-57) loads the
booking by token and, when its status is not `'pending'`, renders the
`already_processed` view with the stored data, offering no action; for a
pending booking, `handleAction` (lines 59-98) blocks a confirmed rejection
whose trimmed reason is empty (the first click on Reject only reveals the
reason input and writes nothing; this definition models the confirm stage)
and otherwise calls `updateBookingStatus` with the chosen outcome, passing
the reason only when rejecting. -/
def pageDecide (S : Store) (token : String) (action : DecideAction)
    (rejectionReason : String) (now : Nat) (f : UpdFlags) : DecideResult × Store :=
  match getBookingByToken S token with
  | none => (.notFound, S)
  | some br =>
    if br.status ≠ .pending then (.alreadyProcessed br, S)
    else
      match action with
      | .approve =>
          match updateBookingStatus S br.id .approved none now f with
          | (.ok _, S') => (.decided .approved, S')
          | (.error e, S') => (.errored e, S')
      | .reject =>
          if trimStr rejectionReason == "" then (.missingReason, S)
          else
            match updateBookingStatus S br.id .rejected (some rejectionReason) now f with
            | (.ok _, S') => (.decided .rejected, S')
            | (.error e, S') => (.errored e, S')

/-! ### Helper lemmas about the store each operation leaves behind -/

/-- The Firestore collection after `savePendingBooking`: the new document is
appended exactly when the `addDoc` succeeded. -/
theorem savePendingBooking_firestore (S : Store) (d : BookingFormData) (token : String)
    (uid ai : Option String) (now : Nat) (f : SaveFlags) :
    (savePendingBooking S d token uid ai now f).2.firestore =
      if f.fsAddOk then S.firestore ++ [newBookingDoc S d token uid ai now]
      else S.firestore := by
  rcases f with ⟨fs, hw, uw⟩
  cases fs <;> cases hw <;> cases uw <;> cases uid <;>
    simp [savePendingBooking]

/-- The Firestore collection after `updateBookingStatus`: when the
`updateDoc` succeeded, every document whose id matches is rewritten by
`applyDecision` and nothing else changes; otherwise the collection is
untouched. Mirror outcomes never affect the authoritative collection. -/
theorem updateBookingStatus_firestore (S : Store) (bid : String) (dec : Decision)
    (reason : Option String) (now : Nat) (f : UpdFlags) :
    (updateBookingStatus S bid dec reason now f).2.firestore =
      if f.fsUpdateOk then
        S.firestore.map (fun b =>
          if b.id == bid then applyDecision dec reason now b else b)
      else S.firestore := by
  rcases f with ⟨fs, hr, hw⟩
  cases fs
  · simp [updateBookingStatus]
  · cases hr
    · simp [updateBookingStatus]
    · cases hf : List.find? (fun r => r.firestoreId == bid) S.hallBookings with
      | none => simp [updateBookingStatus, hf]
      | some r => cases hw <;> simp [updateBookingStatus, hf]

/-- A document whose id differs from the updated one survives
`updateBookingStatus` unchanged. -/
theorem mem_updateBookingStatus_of_ne (S : Store) (bid : String) (dec : Decision)
    (reason : Option String) (now : Nat) (f : UpdFlags)
    (b : BookingDoc) (hb : b ∈ S.firestore) (hne : b.id ≠ bid) :
    b ∈ (updateBookingStatus S bid dec reason now f).2.firestore := by
  rw [updateBookingStatus_firestore]
  split
  · exact List.mem_map.mpr ⟨b, hb, by simp [hne]⟩
  · exact hb

/-- The store after `pageDecide` is either untouched or the store of an
`updateBookingStatus` call targeting the id of a booking that was fetched
by token and found pending. -/
theorem pageDecide_store (S : Store) (token : String) (a : DecideAction)
    (reason : String) (now : Nat) (f : UpdFlags) :
    (pageDecide S token a reason now f).2 = S ∨
    ∃ br, getBookingByToken S token = some br ∧ br.status = .pending ∧
      ((pageDecide S token a reason now f).2
          = (updateBookingStatus S br.id .approved none now f).2 ∨
       (pageDecide S token a reason now f).2
          = (updateBookingStatus S br.id .rejected (some reason) now f).2) := by
  unfold pageDecide
  cases hfetch : getBookingByToken S token with
  | none => simp
  | some br =>
    by_cases hst : br.status = .pending
    · simp only [hst]
      cases a with
      | approve =>
        right
        refine ⟨br, rfl, hst, Or.inl ?_⟩
        cases hupd : updateBookingStatus S br.id .approved none now f with
        | mk r S' => cases r <;> simp [hupd]
      | reject =>
        by_cases hre : trimStr reason = ""
        · left; simp [hre]
        · right
          refine ⟨br, rfl, hst, Or.inr ?_⟩
          have : (trimStr reason == "") = false := by simp [hre]
          simp only [this]
          cases hupd : updateBookingStatus S br.id .rejected (some reason) now f with
          | mk r S' => cases r <;> simp [hupd]
    · simp [hst]

/-! ### Concrete fixtures -/

/-- Empty stores, no documents yet. -/
def emptyStore : Store := ⟨[], [], [], [], 0⟩

/-- A request for Main Hall on day 0, 10:00-11:00. -/
def aliceReq : BookingFormData :=
  { studentName := "Alice", studentEmail := "alice@u.edu", hallPreference := "Main Hall",
    date := 0, startTime := "10:00", endTime := "11:00" }

/-- A request for Main Hall on day 0, 10:30-11:30, overlapping `aliceReq`
even without the buffer. -/
def bobReq : BookingFormData :=
  { studentName := "Bob", studentEmail := "bob@u.edu", hallPreference := "Main Hall",
    date := 0, startTime := "10:30", endTime := "11:30" }

/-- The Firestore document created for `aliceReq`. -/
def aliceDoc : BookingDoc := newBookingDoc emptyStore aliceReq "t1" none none 1

/-- The caller-facing view of `aliceDoc`. -/
def aliceBr : BookingRequest := mapDocToBookingRequest aliceDoc

/-- The store after `aliceReq` was created with token `"t1"`. -/
def storeWithAlice : Store :=
  (savePendingBooking emptyStore aliceReq "t1" none none 1 allSaveOk).2

/-- `storeWithAlice` with the `hallBookings` mirror still empty: the state a
second caller races against when the mirror write of the first creation has
not landed yet. -/
def racedStore : Store := { storeWithAlice with hallBookings := [] }

/-- The store after the booking of `storeWithAlice` was approved through the
approval page at time 5. -/
def approvedStore : Store := (pageDecide storeWithAlice "t1" .approve "" 5 allUpdOk).2

/-- The caller-facing view of the approved booking in `approvedStore`. -/
def approvedBr : BookingRequest :=
  mapDocToBookingRequest (applyDecision .approved none 5 aliceDoc)

/-! ### C2: no commit-time conflict re-check -/

/-- C2 counterexample: in `racedStore` the authoritative store holds an
active pending Main Hall booking for minutes 600-660 of day 0, the advisory
pre-check (reading the lagging mirror) reports the slot available, the
candidate 630-690 conflicts under the buffered rule, and yet
`savePendingBooking` for the candidate succeeds instead of failing with a
conflict error. -/
theorem savePendingBooking_commits_conflict_cex :
    (racedStore.firestore.map (fun b =>
        (b.hallPreference, b.date, b.status, b.startTimeDate, b.endTimeDate)))
      = [("Main Hall", 0, .pending, some 600, some 660)] ∧
    checkAvailabilityWithRTDB racedStore "Main Hall" 0 "10:30" "11:30" true
      = (true, false) ∧
    rtdbConflict 600 660 630 690 = true ∧
    (savePendingBooking racedStore bobReq "t2" none none 2 allSaveOk).1 = .ok "1" := by
  refine ⟨rfl, rfl, by decide, rfl⟩

/-- C2 amended: `savePendingBooking` performs no conflict re-check against
the authoritative store at commit time; when its writes succeed it stores
the second reservation as pending even if an active reservation on the same
hall and day overlaps it under the buffered rule, so overlap is screened
only by the advisory pre-check run before the create is attempted. -/
theorem savePendingBooking_ignores_conflicts
    (S : Store) (d : BookingFormData) (token : String) (uid ai : Option String) (now : Nat)
    (b : BookingDoc) (hb : b ∈ S.firestore)
    (hact : b.status = .pending ∨ b.status = .approved)
    (hhall : b.hallPreference = d.hallPreference)
    (hday : b.date = d.date)
    (hconf : rtdbConflict (instantOf b.date (parseHM b.startTime))
        (instantOf b.date (parseHM b.endTime))
        (instantOf d.date (parseHM d.startTime))
        (instantOf d.date (parseHM d.endTime)) = true) :
    (savePendingBooking S d token uid ai now allSaveOk).1 = .ok (toString S.nextId) ∧
    (savePendingBooking S d token uid ai now allSaveOk).2.firestore
      = S.firestore ++ [newBookingDoc S d token uid ai now] ∧
    (newBookingDoc S d token uid ai now).status = .pending := by
  refine ⟨?_, ?_, rfl⟩
  · cases uid <;> simp [savePendingBooking, allSaveOk, newBookingDoc]
  · rw [savePendingBooking_firestore]; rfl

/-- C2 amended, witness at the raced fixture. -/
theorem savePendingBooking_ignores_conflicts_witness :
    (savePendingBooking racedStore bobReq "t2" none none 2 allSaveOk).1
      = .ok (toString racedStore.nextId) ∧
    (savePendingBooking racedStore bobReq "t2" none none 2 allSaveOk).2.firestore
      = racedStore.firestore ++ [newBookingDoc racedStore bobReq "t2" none none 2] ∧
    (newBookingDoc racedStore bobReq "t2" none none 2).status = .pending :=
  savePendingBooking_ignores_conflicts racedStore bobReq "t2" none none 2
    aliceDoc (by decide) (Or.inl (by decide)) (by decide) (by decide) (by decide)

/-! ### C3: deciding a non-pending reservation is an idempotent no-op -/

/-- C3: when the booking fetched for a token is no longer pending, the
approval workflow reports it as already processed with the stored (first)
decision data and leaves the store untouched, whatever outcome the second
invocation carries; in particular no decision timestamp moves on replay. -/
theorem decide_nonpending_already_processed
    (S : Store) (token : String) (a : DecideAction) (reason : String) (now : Nat)
    (f : UpdFlags) (br : BookingRequest)
    (hfetch : getBookingByToken S token = some br)
    (hst : br.status ≠ .pending) :
    pageDecide S token a reason now f = (.alreadyProcessed br, S) := by
  unfold pageDecide
  rw [hfetch]
  simp [hst]

/-- C3, witness: replaying a rejection against the already-approved booking
of `approvedStore` reports it as already processed and changes nothing. -/
theorem decide_nonpending_already_processed_witness :
    pageDecide approvedStore "t1" .reject "changed my mind" 9 allUpdOk
      = (.alreadyProcessed approvedBr, approvedStore) :=
  decide_nonpending_already_processed approvedStore "t1" .reject "changed my mind" 9
    allUpdOk approvedBr (by decide) (by decide)

/-! ### C4: status transitions and their enforcement -/

/-- C4 counterexample: the store-level status update is not conditional on
the current status being pending: calling `updateBookingStatus` on the
already-approved booking of `approvedStore` flips it to rejected and moves
the decision fields, so a decided reservation is not immutable at the level
of the update operation itself. -/
theorem updateBookingStatus_unconditional_cex :
    ((approvedStore.firestore.find? (fun b => b.id == "0")).map
        (fun b => (b.status, b.approvedAt, b.rejectionReason)))
      = some (.approved, some 5, none) ∧
    (((updateBookingStatus approvedStore "0" .rejected (some "changed") 9
          allUpdOk).2.firestore.find? (fun b => b.id == "0")).map
        (fun b => (b.status, b.rejectionReason, b.rejectedAt)))
      = some (.rejected, some "changed", some 9) := by
  refine ⟨by decide, by decide⟩

/-- C4 amended: reservations are created pending, and under the operations
of the workflow (creation, and deciding through the approval page, which
re-fetches the booking and acts only when it observes status pending) a
decided reservation is never modified in a sequential execution; the
protection comes from that pre-read check, not from a conditional update --
the store-level `updateBookingStatus` itself overwrites regardless of the
current status. -/
theorem decided_bookings_terminal_in_workflow
    (S : Store) (hids : (S.firestore.map (fun b => b.id)).Nodup)
    (b : BookingDoc) (hb : b ∈ S.firestore) (hdec : b.status ≠ .pending)
    (token : String) (a : DecideAction) (reason : String) (now : Nat) (f : UpdFlags)
    (d : BookingFormData) (tok : String) (uid ai : Option String)
    (now2 : Nat) (f2 : SaveFlags) :
    b ∈ (pageDecide S token a reason now f).2.firestore ∧
    b ∈ (savePendingBooking S d tok uid ai now2 f2).2.firestore ∧
    (newBookingDoc S d tok uid ai now2).status = .pending := by
  refine ⟨?_, ?_, rfl⟩
  · rcases pageDecide_store S token a reason now f with h | ⟨br, hfetch, hpend, h | h⟩
    · rw [h]; exact hb
    all_goals {
      rw [h]
      apply mem_updateBookingStatus_of_ne _ _ _ _ _ _ _ hb
      obtain ⟨db, hdb⟩ : ∃ db, S.firestore.find? (fun x => x.token == token) = some db := by
        cases hf : S.firestore.find? (fun x => x.token == token) with
        | none => simp [getBookingByToken, hf] at hfetch
        | some db => exact ⟨db, rfl⟩
      have hdbmem : db ∈ S.firestore := List.mem_of_find?_eq_some hdb
      have hbr : br = mapDocToBookingRequest db := by
        simp [getBookingByToken, hdb] at hfetch
        exact hfetch.symm
      have hdbst : db.status = .pending := by
        have : br.status = db.status := by rw [hbr]; rfl
        rw [← this, hpend]
      have hbrid : br.id = db.id := by rw [hbr]; rfl
      intro hcontra
      apply hdec
      have hbdb : b = db :=
        List.inj_on_of_nodup_map hids hb hdbmem (by rw [hcontra, hbrid])
      rw [hbdb, hdbst]
    }
  · rw [savePendingBooking_firestore]
    split
    · exact List.mem_append_left _ hb
    · exact hb

/-- C4 amended, witness: the approved booking of `approvedStore` survives a
further page decision with a different outcome and a further creation. -/
theorem decided_bookings_terminal_in_workflow_witness :
    applyDecision .approved none 5 aliceDoc
        ∈ (pageDecide approvedStore "t1" .reject "zzz" 9 allUpdOk).2.firestore ∧
    applyDecision .approved none 5 aliceDoc
        ∈ (savePendingBooking approvedStore bobReq "t9" none none 9
            allSaveOk).2.firestore ∧
    (newBookingDoc approvedStore bobReq "t9" none none 9).status = .pending :=
  decided_bookings_terminal_in_workflow approvedStore (by decide)
    (applyDecision .approved none 5 aliceDoc) (by decide) (by decide)
    "t1" .reject "zzz" 9 allUpdOk bobReq "t9" none none 9 allSaveOk

/-! ### C5: the month view day status -/

/-- `getUniqueHalls` never yields an empty hall set: the fallback replaces
an empty result, and any booking contributes its hall. -/
theorem getUniqueHalls_ne_nil (bookings : List BookingRequest) :
    getUniqueHalls bookings ≠ [] := by
  cases h : ((List.map (fun b => b.hallPreference) bookings).eraseDups).isEmpty with
  | true => simp [getUniqueHalls, h, defaultHalls]
  | false =>
    simp only [getUniqueHalls, h, Bool.false_eq_true, if_false]
    intro hnil
    rw [hnil] at h
    simp at h

/-- A hall contributes no free slot exactly when every candidate slot has a
buffered conflict with one of its active bookings of the day. -/
theorem hall_no_free_slot_iff (bookings : List BookingRequest) (hall : String) (day : Nat) :
    (!hallHasAvailableSlot bookings hall day) = true ↔
    ∀ slot ∈ ALL_POSSIBLE_SLOTS,
      ∃ bi ∈ bookingsForHallOnDay bookings hall day,
        calendarSlotConflict (instantOf day (slot.1, 0)) (instantOf day (slot.2, 0))
          bi.1 bi.2 = true := by
  simp [hallHasAvailableSlot, slotIsAvailable, List.any_eq_true, List.all_eq_true]

/-- C5: a day is marked fully booked exactly when every hall of the
configured hall set has no conflict-free one-hour candidate slot against its
active bookings of that day; and with no bookings contributing a hall, the
hall set falls back to the fixed default halls. -/
theorem dayStatus_fully_booked_iff (bookings : List BookingRequest) (day : Nat) :
    (dayStatus bookings day = .fullyBooked ↔
      ∀ hall ∈ getUniqueHalls bookings, ∀ slot ∈ ALL_POSSIBLE_SLOTS,
        ∃ bi ∈ bookingsForHallOnDay bookings hall day,
          calendarSlotConflict (instantOf day (slot.1, 0)) (instantOf day (slot.2, 0))
            bi.1 bi.2 = true) ∧
    getUniqueHalls [] = ["Main Hall", "Seminar Room A", "Conference Room B"] := by
  refine ⟨?_, rfl⟩
  have hne := getUniqueHalls_ne_nil bookings
  have hempty : (getUniqueHalls bookings).isEmpty = false := by
    cases h : (getUniqueHalls bookings).isEmpty
    · rfl
    · exact absurd (List.isEmpty_iff.mp h) hne
  have hunfold : dayStatus bookings day =
      if (getUniqueHalls bookings).isEmpty then .available
      else if (getUniqueHalls bookings).all
          (fun hall => !hallHasAvailableSlot bookings hall day)
      then .fullyBooked else .available := rfl
  rw [hunfold, hempty]
  simp only [Bool.false_eq_true, if_false]
  cases hall : (getUniqueHalls bookings).all
      (fun hall => !hallHasAvailableSlot bookings hall day) with
  | true =>
    refine iff_of_true (by simp [hall]) ?_
    intro h hh
    exact (hall_no_free_slot_iff bookings h day).mp (List.all_eq_true.mp hall h hh)
  | false =>
    refine iff_of_false (by simp [hall]) ?_
    intro hforall
    obtain ⟨h, hh, hfalse⟩ := List.all_eq_false.mp hall
    exact hfalse ((hall_no_free_slot_iff bookings h day).mpr (hforall h hh))

/-! ### C6: which mirror failures are swallowed -/

/-- C6 counterexample: with the authoritative `addDoc` succeeding but the
`hallBookings` mirror write failing, `savePendingBooking` reports an error
to the caller even though the authoritative document was stored, so a
mirror-write failure is propagated rather than merely logged. -/
theorem mirror_failure_propagates_cex :
    (savePendingBooking emptyStore aliceReq "t1" none none 1 ⟨true, false, true⟩).1
      = .error .saveFailed ∧
    (savePendingBooking emptyStore aliceReq "t1" none none 1
        ⟨true, false, true⟩).2.firestore.length = 1 := by
  refine ⟨rfl, by decide⟩

/-- C6 amended: only the per-requester mirror step of `updateBookingStatus`
is best-effort (its failure is swallowed and the decision still succeeds);
a failure of the `hallBookings` mirror write in `updateBookingStatus`, and
a failure of either mirror write in `savePendingBooking`, propagate to the
caller as an error even though the authoritative write already succeeded
and is left in place. -/
theorem mirror_failure_tolerance
    (S : Store) (bid : String) (dec : Decision) (reason : Option String) (now : Nat)
    (d : BookingFormData) (token : String) (uid : String) (ai : Option String)
    (hmirror : (S.hallBookings.find? (fun r => r.firestoreId == bid)).isSome = true) :
    (updateBookingStatus S bid dec reason now allUpdOk).1 = .ok () ∧
    (updateBookingStatus S bid dec reason now ⟨true, true, false⟩).1
      = .error .updateFailed ∧
    (savePendingBooking S d token (some uid) ai now ⟨true, false, true⟩).1
      = .error .saveFailed ∧
    (savePendingBooking S d token (some uid) ai now ⟨true, true, false⟩).1
      = .error .saveFailed ∧
    (savePendingBooking S d token (some uid) ai now ⟨true, false, true⟩).2.firestore
      = S.firestore ++ [newBookingDoc S d token (some uid) ai now] := by
  obtain ⟨r, hr⟩ := Option.isSome_iff_exists.mp hmirror
  refine ⟨?_, ?_, by simp [savePendingBooking], by simp [savePendingBooking], ?_⟩
  · simp only [updateBookingStatus, allUpdOk, Bool.not_true, Bool.false_eq_true, if_false, hr]
  · simp only [updateBookingStatus, Bool.not_true, Bool.not_false, Bool.false_eq_true,
      if_false, if_true, hr]
  · rw [savePendingBooking_firestore]
    simp

/-- C6 amended, witness: at `storeWithAlice`, whose mirror holds the record
for document id `"0"`. -/
theorem mirror_failure_tolerance_witness :
    (updateBookingStatus storeWithAlice "0" .approved none 5 allUpdOk).1 = .ok () ∧
    (updateBookingStatus storeWithAlice "0" .approved none 5 ⟨true, true, false⟩).1
      = .error .updateFailed ∧
    (savePendingBooking storeWithAlice bobReq "t2" (some "u7") none 5
        ⟨true, false, true⟩).1 = .error .saveFailed ∧
    (savePendingBooking storeWithAlice bobReq "t2" (some "u7") none 5
        ⟨true, true, false⟩).1 = .error .saveFailed ∧
    (savePendingBooking storeWithAlice bobReq "t2" (some "u7") none 5
        ⟨true, false, true⟩).2.firestore
      = storeWithAlice.firestore ++ [newBookingDoc storeWithAlice bobReq "t2"
          (some "u7") none 5] :=
  mirror_failure_tolerance storeWithAlice "0" .approved none 5 bobReq "t2" "u7" none
    (by decide)

/-! ### C7: rejection requires a non-empty reason -/

/-- C7: for a pending booking, a confirmed rejection whose trimmed reason is
empty is refused before any write (the store is unchanged and an error about
the missing reason is shown); with a non-empty trimmed reason, the stored
rejection carries exactly the caller-supplied reason, and the rejection is
recorded. -/
theorem reject_requires_nonempty_reason
    (S : Store) (token : String) (reason : String) (now : Nat)
    (br : BookingRequest) (hfetch : getBookingByToken S token = some br)
    (hst : br.status = .pending) :
    (trimStr reason = "" →
      pageDecide S token .reject reason now allUpdOk = (.missingReason, S)) ∧
    (trimStr reason ≠ "" →
      (pageDecide S token .reject reason now allUpdOk).1 = .decided .rejected ∧
      ∀ b ∈ (pageDecide S token .reject reason now allUpdOk).2.firestore,
        b.id = br.id → b.status = .rejected ∧ b.rejectionReason = some reason) := by
  constructor
  · intro hre
    unfold pageDecide
    rw [hfetch]
    simp [hst, hre]
  · intro hre
    have hreason : reason ≠ "" := by
      intro hcontra
      rw [hcontra] at hre
      exact hre rfl
    have hbeq : (trimStr reason == "") = false := by
      cases h : trimStr reason == ""
      · rfl
      · exact absurd (by simpa using h) hre
    have hres : pageDecide S token .reject reason now allUpdOk
        = match updateBookingStatus S br.id .rejected (some reason) now allUpdOk with
          | (.ok _, S') => (.decided .rejected, S')
          | (.error e, S') => (.errored e, S') := by
      unfold pageDecide
      rw [hfetch]
      simp [hst, hbeq]
    have hupd1 : (updateBookingStatus S br.id .rejected (some reason) now allUpdOk).1
        = .ok () := by
      simp only [updateBookingStatus, allUpdOk, Bool.not_true, Bool.false_eq_true, if_false]
      cases hf : List.find? (fun r => r.firestoreId == br.id) S.hallBookings <;> simp [hf]
    constructor
    · rw [hres]
      cases hupd : updateBookingStatus S br.id .rejected (some reason) now allUpdOk with
      | mk r S' =>
        cases r with
        | ok u => rfl
        | error e =>
          rw [hupd] at hupd1
          exact absurd hupd1 (by simp)
    · intro b hb hbid
      have hstore : (pageDecide S token .reject reason now allUpdOk).2
          = (updateBookingStatus S br.id .rejected (some reason) now allUpdOk).2 := by
        rw [hres]
        cases hupd : updateBookingStatus S br.id .rejected (some reason) now allUpdOk with
        | mk r S' => cases r <;> simp
      rw [hstore, updateBookingStatus_firestore] at hb
      simp only [allUpdOk, if_true] at hb
      obtain ⟨x, hx, hxb⟩ := List.mem_map.mp hb
      by_cases hid : x.id = br.id
      · have : (x.id == br.id) = true := by simp [hid]
        rw [this] at hxb
        rw [← hxb]
        refine ⟨rfl, ?_⟩
        simp [applyDecision, reasonOrDefault, hreason]
      · have : (x.id == br.id) = false := by simp [hid]
        rw [this] at hxb
        simp only [Bool.false_eq_true, if_false] at hxb
        rw [← hxb] at hbid
        exact absurd hbid hid

/-- C7, witness: both branches at the pending booking of `storeWithAlice`:
an empty reason is refused with no write, the reason `"late request"` is
stored verbatim on the rejected booking. -/
theorem reject_requires_nonempty_reason_witness :
    pageDecide storeWithAlice "t1" .reject "" 5 allUpdOk
      = (.missingReason, storeWithAlice) ∧
    (pageDecide storeWithAlice "t1" .reject "late request" 5 allUpdOk).1
      = .decided .rejected :=
  ⟨(reject_requires_nonempty_reason storeWithAlice "t1" "" 5 aliceBr (by decide)
      (by decide)).1 (by decide),
   ((reject_requires_nonempty_reason storeWithAlice "t1" "late request" 5 aliceBr
      (by decide) (by decide)).2 (by decide)).1⟩

/-! ### C8: the availability listings -/

/-- C8 counterexample: when the Firestore read fails,
`getHallBookingsForDate` records the observability event in the Realtime
Database failure log but then raises the error to the caller instead of
returning an empty sequence. -/
theorem availability_read_failure_raises_cex :
    (getHallBookingsForDate storeWithAlice "Main Hall" 0 false true 7).1
      = .error .fetchFailed ∧
    (getHallBookingsForDate storeWithAlice "Main Hall" 0 false true 7).2.failureLog
      = storeWithAlice.failureLog ++ [⟨"Main Hall", 0, 7⟩] := by
  exact ⟨rfl, rfl⟩

/-- C8 amended: the authoritative listing `getHallBookingsForDate` returns
only pending/approved records of the requested hall and day and leaves the
store untouched on success; on a read failure it records an observability
event in the Realtime Database failure log and then raises to the caller;
it is the mirror listing `getHallBookingsForDateFromRealtimeDB` (the one
feeding the booking form's advisory check) that degrades to an empty
sequence on failure. -/
theorem availability_listing_behavior
    (S : Store) (hall : String) (day : Nat) (now : Nat) (logOk : Bool)
    (l : List BookingRequest)
    (hok : (getHallBookingsForDate S hall day true logOk now).1 = .ok l) :
    (∀ br ∈ l, br.hallPreference = hall ∧ br.date = day ∧
       (br.status = .pending ∨ br.status = .approved)) ∧
    (getHallBookingsForDate S hall day true logOk now).2 = S ∧
    (getHallBookingsForDate S hall day false true now).1 = .error .fetchFailed ∧
    (getHallBookingsForDate S hall day false true now).2.failureLog
        = S.failureLog ++ [⟨hall, day, now⟩] ∧
    getHallBookingsForDateFromRealtimeDB S hall day false = [] := by
  refine ⟨?_, rfl, rfl, rfl, rfl⟩
  intro br hbr
  have hl : (S.firestore.filter (fun b =>
      b.hallPreference == hall
      && decide (day * 1440 ≤ b.date * 1440)
      && decide (b.date * 1440 ≤ day * 1440 + 1439)
      && (b.status == .pending || b.status == .approved))).map mapDocToBookingRequest
      = l := by
    have h0 : (getHallBookingsForDate S hall day true logOk now).1
        = .ok ((S.firestore.filter (fun b =>
            b.hallPreference == hall
            && decide (day * 1440 ≤ b.date * 1440)
            && decide (b.date * 1440 ≤ day * 1440 + 1439)
            && (b.status == .pending || b.status == .approved))).map
              mapDocToBookingRequest) := rfl
    rw [h0] at hok
    exact Except.ok.inj hok
  rw [← hl] at hbr
  obtain ⟨b, hb, hmap⟩ := List.mem_map.mp hbr
  obtain ⟨hmem, hp⟩ := List.mem_filter.mp hb
  simp only [Bool.and_eq_true, Bool.or_eq_true, beq_iff_eq, decide_eq_true_eq] at hp
  obtain ⟨⟨⟨hhall, hge⟩, hle⟩, hst⟩ := hp
  have hdate : b.date = day := by omega
  have h1 : br.hallPreference = b.hallPreference := by rw [← hmap]; rfl
  have h2 : br.date = b.date := by rw [← hmap]; rfl
  have h3 : br.status = b.status := by rw [← hmap]; rfl
  refine ⟨by rw [h1, hhall], by rw [h2, hdate], ?_⟩
  rw [h3]
  exact hst

/-- C8 amended, witness: at `storeWithAlice` the listing for Main Hall on
day 0 is the single pending booking, and it satisfies the filter facts. -/
theorem availability_listing_behavior_witness :
    (∀ br ∈ [aliceBr], br.hallPreference = "Main Hall" ∧ br.date = 0 ∧
       (br.status = .pending ∨ br.status = .approved)) ∧
    (getHallBookingsForDate storeWithAlice "Main Hall" 0 true true 7).2
      = storeWithAlice ∧
    (getHallBookingsForDate storeWithAlice "Main Hall" 0 false true 7).1
      = .error .fetchFailed ∧
    (getHallBookingsForDate storeWithAlice "Main Hall" 0 false true 7).2.failureLog
      = storeWithAlice.failureLog ++ [⟨"Main Hall", 0, 7⟩] ∧
    getHallBookingsForDateFromRealtimeDB storeWithAlice "Main Hall" 0 false = [] :=
  availability_listing_behavior storeWithAlice "Main Hall" 0 7 true [aliceBr] rfl

/-! ### C9: create/fetch round trip -/

/-- C9: a reservation created by `savePendingBooking` and re-fetched by
`getBookingByToken` with the freshly issued token has exactly the submitted
hall, date, start time, end time, student name and student email. -/
theorem create_get_roundtrip
    (S : Store) (d : BookingFormData) (token : String) (uid ai : Option String)
    (now : Nat) (hfresh : ∀ b ∈ S.firestore, b.token ≠ token) :
    ∃ br, getBookingByToken (savePendingBooking S d token uid ai now allSaveOk).2 token
        = some br ∧
      br.hallPreference = d.hallPreference ∧ br.date = d.date ∧
      br.startTime = d.startTime ∧ br.endTime = d.endTime ∧
      br.studentName = d.studentName ∧ br.studentEmail = d.studentEmail := by
  refine ⟨mapDocToBookingRequest (newBookingDoc S d token uid ai now),
    ?_, rfl, rfl, rfl, rfl, rfl, rfl⟩
  unfold getBookingByToken
  rw [savePendingBooking_firestore]
  have hflag : allSaveOk.fsAddOk = true := rfl
  rw [if_pos hflag, List.find?_append]
  have h1 : S.firestore.find? (fun b => b.token == token) = none :=
    List.find?_eq_none.mpr (fun x hx => by simp [hfresh x hx])
  rw [h1]
  simp [newBookingDoc]

/-- C9, witness: the round trip at the empty store for `aliceReq`. -/
theorem create_get_roundtrip_witness :
    ∃ br, getBookingByToken (savePendingBooking emptyStore aliceReq "t1" none none 1
        allSaveOk).2 "t1" = some br ∧
      br.hallPreference = aliceReq.hallPreference ∧ br.date = aliceReq.date ∧
      br.startTime = aliceReq.startTime ∧ br.endTime = aliceReq.endTime ∧
      br.studentName = aliceReq.studentName ∧ br.studentEmail = aliceReq.studentEmail :=
  create_get_roundtrip emptyStore aliceReq "t1" none none 1
    (fun b hb => absurd hb (List.not_mem_nil b))

/-! ### C10: the decision update writes only the decision fields -/

/-- C10: the authoritative update of `updateBookingStatus` rewrites only the
document with the targeted id, and on that document it writes only the
status, the matching decision timestamp (`approvedAt` when approving,
`rejectedAt` when rejecting) and the `rejectionReason` field (cleared on
approval, the possibly defaulted reason on rejection); every other stored
field is carried over unchanged, and documents with other ids survive
unchanged. -/
theorem updateBookingStatus_writes_only_decision_fields
    (S : Store) (bid : String) (reason : Option String) (now : Nat) (f : UpdFlags)
    (hfs : f.fsUpdateOk = true) :
    (∀ b : BookingDoc,
      applyDecision .approved reason now b
        = { b with status := .approved, approvedAt := some now,
                   rejectionReason := none } ∧
      applyDecision .rejected reason now b
        = { b with status := .rejected, rejectedAt := some now,
                   rejectionReason := some (reasonOrDefault reason) }) ∧
    (∀ dec : Decision, (updateBookingStatus S bid dec reason now f).2.firestore
        = S.firestore.map (fun x =>
            if x.id == bid then applyDecision dec reason now x else x)) ∧
    (∀ dec : Decision, ∀ x ∈ S.firestore, x.id ≠ bid →
        x ∈ (updateBookingStatus S bid dec reason now f).2.firestore) := by
  refine ⟨fun b => ⟨rfl, rfl⟩, fun dec => ?_,
    fun dec x hx hne => mem_updateBookingStatus_of_ne S bid dec reason now f x hx hne⟩
  rw [updateBookingStatus_firestore, if_pos hfs]

/-- C10, witness: the frame facts at `storeWithAlice`, id `"0"`. -/
theorem updateBookingStatus_writes_only_decision_fields_witness :
    (∀ b : BookingDoc,
      applyDecision .approved (some "why") 9 b
        = { b with status := .approved, approvedAt := some 9,
                   rejectionReason := none } ∧
      applyDecision .rejected (some "why") 9 b
        = { b with status := .rejected, rejectedAt := some 9,
                   rejectionReason := some (reasonOrDefault (some "why")) }) ∧
    (∀ dec : Decision,
      (updateBookingStatus storeWithAlice "0" dec (some "why") 9 allUpdOk).2.firestore
        = storeWithAlice.firestore.map (fun x =>
            if x.id == "0" then applyDecision dec (some "why") 9 x else x)) ∧
    (∀ dec : Decision, ∀ x ∈ storeWithAlice.firestore, x.id ≠ "0" →
        x ∈ (updateBookingStatus storeWithAlice "0" dec (some "why") 9
              allUpdOk).2.firestore) :=
  updateBookingStatus_writes_only_decision_fields storeWithAlice "0" (some "why") 9
    allUpdOk rfl

end HallPass
